import Mathlib

/-!
Verification of the vuit session engine (fuzzy file finder / content search /
replace / embedded terminal) against its natural-language specification.

The Rust source is embedded shallowly:

* string helpers (`clean_utf8_content`, Rust `str::lines`, `str::replace`,
  `str::split`, `parse::<usize>`, lowercasing, substring search) become
  executable Lean functions on `String` / `List Char`;
* the configuration-loading control flow of `run`, the fuzzy filter
  `run_search_cmd`, the content-search worker body of `start_async_search`
  and the batch replace `replace_string_occurences` become pure functions
  (the file system is a `String → Option String` map, `none` meaning the
  read fails; the skim fuzzy matcher is an opaque scoring parameter);
* the input dispatcher (`dispatch_event` and the four context handlers)
  becomes a deterministic step function on an explicit `VuitState` record,
  driven by key events plus two scheduler events (the idle poll tick and
  the completion of a background search worker).  Ghost fields
  (`spawned`, `consumed`, `nextGen`, `sentLog`) record how many search jobs
  were started / consumed and which terminal session a write went to; they
  are write-only and never influence the embedded control flow.
-/

/-! ### String helpers (src/vuit/utils.rs and Rust std semantics) -/

/-- Rust `char::is_ascii_graphic`: printable ASCII except space. -/
def isAsciiGraphic (c : Char) : Bool :=
  0x21 ≤ c.toNat && c.toNat ≤ 0x7e

/-- Embeds `clean_utf8_content` (src/vuit/utils.rs): keep ASCII-graphic
characters, newlines and spaces, drop everything else. -/
def cleanUtf8Content (s : String) : String :=
  ⟨s.toList.filter fun c => isAsciiGraphic c || c = '\n' || c = ' '⟩

/-- Rust `str::split(sep)` on a single separator character. -/
def splitChar (sep : Char) : List Char → List (List Char)
  | [] => [[]]
  | c :: rest =>
    match splitChar sep rest with
    | [] => [[]]
    | g :: gs => if c = sep then [] :: g :: gs else (c :: g) :: gs

/-- Rust `str::lines`: split on a newline, drop a final empty segment
produced by a trailing newline, and strip one trailing carriage return
from each line. -/
def rustLines (s : String) : List String :=
  let parts := splitChar '\n' s.toList
  let parts := if parts.getLast? = some [] then parts.dropLast else parts
  parts.map fun l => ⟨if l.getLast? = some '\r' then l.dropLast else l⟩

/-- Rust `Vec::<String>::join("\n")`, used when a modified file is written
back. -/
def joinLines (ls : List String) : String :=
  String.intercalate "\n" ls

/-- Rust `str::parse::<usize>` restricted to the digit strings that occur
in match entries: a non-empty all-digit string parses to its value. -/
def parseNat (s : String) : Option Nat :=
  if s.toList ≠ [] ∧ s.toList.all (·.isDigit) then
    some (s.toList.foldl (fun n c => n * 10 + (c.toNat - 48)) 0)
  else none

/-- Character-wise lowercasing, modelling Rust `str::to_lowercase` on the
ASCII content the engine handles. -/
def lowerStr (s : String) : String :=
  ⟨s.toList.map Char.toLower⟩

/-- Byte-substring search, modelling `memmem::find(haystack, needle)`:
the needle occurs as a contiguous run somewhere in the haystack. -/
def containsSub (hay pat : String) : Bool :=
  hay.toList.tails.any fun t => pat.toList.isPrefixOf t

/-- Rust `str::replace(pat, rep)` on character lists: replace the leftmost
occurrences, non-overlapping, left to right.  The caller in the source
never passes an empty pattern (the replace operation bails out first), so
the empty-pattern branch is the identity.  Structural recursion on a fuel
bound (the input length suffices, since every step consumes at least one
character when the pattern is non-empty). -/
def replaceSub (pat rep : List Char) : Nat → List Char → List Char
  | 0, l => l
  | _ + 1, [] => []
  | fuel + 1, c :: rest =>
    if pat ≠ [] ∧ pat.isPrefixOf (c :: rest) then
      rep ++ replaceSub pat rep fuel ((c :: rest).drop pat.length)
    else
      c :: replaceSub pat rep fuel rest

/-- Rust `str::replace` lifted back to `String`. -/
def rustReplace (s pat rep : String) : String :=
  ⟨replaceSub pat.toList rep.toList s.toList.length s.toList⟩

/-- Rust `str::trim_start_matches(';')`: drop every leading semicolon
(the safety filter of `send_cmd_to_proc_term`). -/
def trimLeadingSemis (s : String) : String :=
  ⟨s.toList.dropWhile fun c => c = ';'⟩

/-! ### Configuration loading (src/vuit/mod.rs, `run`) -/

/-- Embeds the `VuitRC` configuration struct. -/
structure VuitRC where
  colorscheme : String
  highlight_color : String
  editor : String
  deriving Repr, DecidableEq

/-- Embeds `impl Default for VuitRC`. -/
def VuitRC.default : VuitRC :=
  { colorscheme := "lightblue", highlight_color := "blue", editor := "vim" }

/-- Outcome of the startup path of `run`: either the interactive UI is
started with some configuration, or the JSON parse error is printed and
the function returns `Ok(())` (a clean exit, code 0) without starting
the UI. -/
inductive ConfigOutcome where
  | startUI (cfg : VuitRC)
  | parseErrorExit
  deriving Repr, DecidableEq

/-- Embeds the configuration-loading control flow of `run`
(src/vuit/mod.rs lines 352-367).  `readResult` is the result of
`fs::read_to_string` on the fixed home-directory path (`none` when the
file is missing or unreadable); `parse` abstracts
`serde_json::from_str::<VuitRC>` (`none` on malformed JSON).  The source
applies `unwrap_or_default()` to the read, then parses only when the
resulting contents are non-empty. -/
def configOutcome (readResult : Option String)
    (parse : String → Option VuitRC) : ConfigOutcome :=
  let contents := readResult.getD ""
  if contents ≠ "" then
    match parse contents with
    | some cfg => ConfigOutcome.startUI cfg
    | none => ConfigOutcome.parseErrorExit
  else
    ConfigOutcome.startUI VuitRC.default

/-! ### Fuzzy filter (src/vuit/mod.rs, `run_search_cmd`) -/

/-- The scored, descending-sorted intermediate of `run_search_cmd`: every
indexed path the matcher scores at all, paired with its score, sorted by
`b.0.cmp(&a.0)` (non-increasing score).  `matcher` abstracts
`SkimMatcherV2::fuzzy_match` (`none` = no match). -/
def rankedMatches (matcher : String → String → Option Int)
    (fdList : List String) (query : String) : List (Int × String) :=
  (fdList.filterMap fun item => (matcher item query).map fun score => (score, item)).insertionSort
    fun a b => b.1 ≤ a.1

/-- Embeds `run_search_cmd`: the ranked list with scores dropped and each
path sanitized by `clean_utf8_content`. -/
def runSearchCmd (matcher : String → String → Option Int)
    (fdList : List String) (query : String) : List String :=
  (rankedMatches matcher fdList query).map fun p => cleanUtf8Content p.2

/-! ### Content search worker (src/vuit/mod.rs, `start_async_search`) -/

/-- Embeds one file of the worker body of `start_async_search`: returns the
number of times this file bumps the shared progress counter, paired with
its matches.  A file that fails to open (`fs path = none`) bumps the
counter once and contributes no matches; otherwise each line whose
lowercasing contains the (already lowercased) query yields a sanitized
`path:line:text` record, and the counter is bumped once at the end. -/
def scanFile (fs : String → Option String) (search : String) (path : String) :
    Nat × List String :=
  match fs path with
  | none => (1, [])
  | some content =>
    (1, (rustLines content).enum.filterMap fun il =>
      if containsSub (lowerStr il.2) search then
        some (cleanUtf8Content (path ++ ":" ++ toString (il.1 + 1) ++ ":" ++ il.2))
      else none)

/-- Embeds the whole worker computation over the captured file list: total
progress increments and the collected match sequence, in file-list order
(rayon's indexed collect preserves it). -/
def workerRun (fs : String → Option String) (search : String)
    (fileList : List String) : Nat × List String :=
  fileList.foldl
    (fun acc p =>
      let r := scanFile fs search p
      (acc.1 + r.1, acc.2 ++ r.2))
    (0, [])

/-- The value of the shared progress counter after the first `k` files of
the list have been scanned (the counter starts from the `store(0)` issued
at spawn time). -/
def progressAfter (fs : String → Option String) (search : String)
    (fileList : List String) (k : Nat) : Nat :=
  (((fileList.map fun p => (scanFile fs search p).1).take k)).sum

/-! ### Batch replace (src/vuit/mod.rs, `replace_string_occurences`) -/

/-- Cache lookup.  The per-file read cache of `replace_string_occurences`
is modelled as an insertion-ordered association list from file path to
cached lines (`HashMap<String, Vec<String>>` in the source; keys are
unique by construction of `or_insert_with`, so the hash map's arbitrary
iteration order is irrelevant to the final file system). -/
def cacheLookup (c : List (String × List String)) (p : String) :
    Option (List String) :=
  (c.find? fun kv => kv.1 = p).map fun kv => kv.2

/-- Embeds `HashMap::entry(..).or_insert_with(..)`: insert the lazily
computed value only when the key is absent. -/
def cacheInsertIfAbsent (c : List (String × List String)) (p : String)
    (v : List String) : List (String × List String) :=
  if (cacheLookup c p).isSome then c else c ++ [(p, v)]

/-- Point update of the cached lines of one file. -/
def cacheModify (c : List (String × List String)) (p : String)
    (f : List String → List String) : List (String × List String) :=
  c.map fun kv => if kv.1 = p then (kv.1, f kv.2) else kv

/-- Embeds the loop body of `replace_string_occurences` for one held match
entry: split on `:`; skip entries with fewer than three parts or an
unparsable line number; cache the file's lines on first sight, an
unreadable file caching the `unwrap_or_default()` empty vector; skip
out-of-range line numbers; otherwise replace the filter string by the
typed replacement on that exact cached line. -/
def processEntry (fs : String → Option String) (filter repl : String)
    (c : List (String × List String)) (entry : String) :
    List (String × List String) :=
  let parts := (splitChar ':' entry.toList).map fun l => (⟨l⟩ : String)
  if parts.length < 3 then c
  else
    match parseNat (parts.getD 1 "") with
    | none => c
    | some lineNumber =>
      let filePath := parts.getD 0 ""
      let c := cacheInsertIfAbsent c filePath
        (match fs filePath with
         | some content => rustLines content
         | none => [])
      let lines := (cacheLookup c filePath).getD []
      if lineNumber = 0 ∨ lineNumber > lines.length then c
      else
        cacheModify c filePath fun ls =>
          ls.set (lineNumber - 1) (rustReplace (ls.getD (lineNumber - 1) "") filter repl)

/-- The cache after every held match entry has been processed. -/
def finalCache (fs : String → Option String) (filter repl : String)
    (entries : List String) : List (String × List String) :=
  entries.foldl (processEntry fs filter repl) []

/-- Embeds the write-back loop: every cached file — modified or not,
readable or not — is written once with its cached lines joined by
newlines. -/
def writeBack (fs : String → Option String)
    (c : List (String × List String)) : String → Option String :=
  c.foldl (fun f kv => fun q => if q = kv.1 then some (joinLines kv.2) else f q) fs

/-- Embeds `replace_string_occurences` as a whole: on an empty recorded
filter it returns immediately; otherwise it builds the cache from the
held `file_str_list` entries, writes every cached file back, and clears
the match list and the typed input.  The result is the new file system
together with the new (match list, typed input) pair. -/
def replaceStringOccurences (fs : String → Option String)
    (fileStrList : List String) (currentStrFilter typedInput : String) :
    (String → Option String) × List String × String :=
  if currentStrFilter = "" then (fs, fileStrList, typedInput)
  else
    let c := finalCache fs currentStrFilter typedInput fileStrList
    (writeBack fs c, [], "")

/-! ### Session state and context dispatcher
(src/vuit/mod.rs, src/vuit/events.rs, src/vuit/contexts/) -/

/-- Embeds the `Focus` enum (which list owns the highlighted index). -/
inductive Focus where
  | Recentfiles
  | Filelist
  | Filestrlist
  deriving Repr, DecidableEq

/-- Embeds the `Context` enum (the active UI mode). -/
inductive Context where
  | Fileviewer
  | Stringsearch
  | Stringsearchreplace
  | Terminal
  | Help
  deriving Repr, DecidableEq

/-- The key events the handlers match on.  `char c` stands for
`KeyCode::Char(c)` with `NONE | SHIFT` modifiers; the `ctrl*`
constructors stand for `Char(..)` with `CONTROL`; the rest are the plain
special keys.  `other` is every unmatched combination (the `_ => {}`
arm). -/
inductive Key where
  | char (c : Char)
  | backspace
  | enter
  | esc
  | down
  | up
  | tab
  | ctrlJ
  | ctrlK
  | ctrlF
  | ctrlR
  | ctrlN
  | ctrlX
  | ctrlH
  | ctrlT
  | ctrlC
  | ctrlP
  | other
  deriving Repr, DecidableEq

/-- One step of the run loop, as seen by `dispatch_event`: a key press, the
100ms poll timeout (the idle tick that installs a finished search), the
completion of a background search worker thread, or the PTY reader thread
appending one line of shell output. -/
inductive AEvent where
  | key (k : Key)
  | idle
  | workerFinish
  | termLine (line : String)

/-- The fixed external world of one session: the skim fuzzy matcher, the
directory walker's output, the initial file contents, whether `$TMUX` is
set, the working directory prefix used by `<C-x>`, and the parsed
configuration. -/
structure Env where
  matcher : String → String → Option Int
  fdList : List String
  files0 : String → Option String
  tmux : Bool
  cwd : String
  config : VuitRC

/-- Embeds the `Vuit` struct: every field the dispatched handlers read or
write, plus ghost instrumentation (`next_gen`, `sent_log`,
`pending_jobs`, `spawned`, `consumed`) that records session generations,
writes to the shell, and the lifecycle of search jobs.  Ghost fields are
only ever written, never branched on, so they do not alter the embedded
control flow.  `files` is the disk as the process sees it (read by the
search worker and the preview, written by the replace operation). -/
structure VuitState where
  config_colorscheme : String
  config_highlight_color : String
  config_editor : String
  colorscheme_index : Nat
  typed_input : String
  file_list : List String
  file_str_list : List String
  preview : List String
  recent_files : List String
  fd_list : List String
  term_out : String
  current_filter : String
  current_str_filter : String
  search_progress_str : String
  bash_process : Option Nat
  command_sender : Option Nat
  process_out : List String
  search_in_progress : Bool
  search_progress : Nat
  search_result : Option (List String)
  switch_focus : Focus
  switch_context : Context
  prev_context : Context
  hltd_file : Nat
  file_list_state : Option Nat
  file_str_list_state : Option Nat
  recent_state : Option Nat
  first_term_open : Bool
  preview_toggle : Bool
  exit : Bool
  files : String → Option String
  next_gen : Nat
  sent_log : List (Nat × String)
  pending_jobs : List (String × List String)
  spawned : Nat
  consumed : Nat

/-- Embeds the `COLORS` constant of src/vuit/ui.rs. -/
def COLORS : List String :=
  ["lightblue", "cyan", "lightgreen", "yellow", "lightred",
   "green", "lightcyan", "blue", "lightyellow", "red"]

/-- Embeds `next_colorscheme` (src/vuit/ui.rs lines 294-300): advance the
index modulo the palette size and reload both configured colors from the
palette.  The final redraw has no modelled effect. -/
def nextColorscheme (s : VuitState) : VuitState :=
  let i := (s.colorscheme_index + 1) % COLORS.length
  { s with
    colorscheme_index := i,
    config_colorscheme := COLORS.getD i "",
    config_highlight_color := COLORS.getD ((i + 1) % COLORS.length) "" }

/-- Embeds `start_term` (src/vuit/contexts/terminal.rs lines 130-156): a
fresh PTY/shell session is spawned (a new generation number), its writer
replaces `command_sender`, its child handle replaces `bash_process`, and
its reader thread is given a clone of the *same* shared `process_out`
buffer — the buffer itself is not touched. -/
def startTerm (s : VuitState) : VuitState :=
  { s with
    bash_process := some s.next_gen,
    command_sender := some s.next_gen,
    next_gen := s.next_gen + 1 }

/-- Embeds `restart_terminal_session` (src/vuit/contexts/terminal.rs lines
158-164): take and kill the child, sleep, then `start_term` again.
Nothing here clears or replaces `process_out`. -/
def restartTerminalSession (s : VuitState) : VuitState :=
  startTerm { s with bash_process := none }

/-- Embeds `send_cmd_to_proc_term` (src/vuit/contexts/terminal.rs lines
166-195): strip leading semicolons, intercept the five reserved words,
otherwise write the command (plus newline) to the current session's
input; the ghost `sent_log` records which session generation received
it. -/
def sendCmdToProcTerm (s : VuitState) : VuitState :=
  let command := trimLeadingSemis s.typed_input
  if command = "vuit" then
    { s with term_out := "Nice Try" }
  else if command = "exit" then
    let s := restartTerminalSession s
    { s with switch_context := Context.Fileviewer, prev_context := Context.Terminal }
  else if command = "quit" then
    let s := restartTerminalSession s
    { s with switch_context := Context.Fileviewer, prev_context := Context.Terminal }
  else if command = "restart" then
    restartTerminalSession s
  else if command = "clear" then
    restartTerminalSession s
  else
    match s.command_sender with
    | some g => { s with sent_log := s.sent_log ++ [(g, command)] }
    | none => s

/-- Embeds `start_async_search` (src/vuit/mod.rs lines 207-257) as seen
from the main thread: lowercase the query, mark a search in progress,
reset the shared progress counter, and spawn a worker capturing the query
and the current file list (queued in `pending_jobs` until its
`AEvent.workerFinish` fires).  The ghost `spawned` counts spawns. -/
def startAsyncSearch (s : VuitState) : VuitState :=
  { s with
    search_in_progress := true,
    search_progress := 0,
    pending_jobs := s.pending_jobs ++ [(lowerStr s.typed_input, s.file_list)],
    spawned := s.spawned + 1 }

/-- Embeds `run_preview_cmd` (src/vuit/mod.rs lines 299-337). -/
def runPreviewCmd (s : VuitState) : List String :=
  let fileList :=
    match s.switch_focus with
    | Focus.Recentfiles => s.recent_files
    | Focus.Filelist => s.file_list
    | Focus.Filestrlist => s.file_str_list
  if fileList = [] ∨ s.switch_focus = Focus.Filestrlist then []
  else
    let filePath := fileList.getD s.hltd_file ""
    let numLines : Nat :=
      if s.switch_context = Context.Terminal ∨ s.switch_context = Context.Help then
        50 - 20
      else 50
    match s.files filePath with
    | some content =>
      if s.switch_focus = Focus.Filestrlist then []
      else ((rustLines content).take numLines).map cleanUtf8Content
    | none => ["No Preview Available"]

/-- Embeds `run_fd_cmd` (src/vuit/mod.rs lines 179-190): re-run the
directory walker (fixed in the environment) and replace the index. -/
def runFdCmd (env : Env) (s : VuitState) : VuitState :=
  { s with fd_list := env.fdList }

/-- Embeds `replace_string_occurences` as the method acting on the whole
state. -/
def applyReplace (s : VuitState) : VuitState :=
  let r := replaceStringOccurences s.files s.file_str_list s.current_str_filter s.typed_input
  { s with files := r.1, file_str_list := r.2.1, typed_input := r.2.2 }

/-- Embeds `split_once(':').map(|(before, _)| before).unwrap_or(entry)`:
the path part of a `path:line:text` match entry. -/
def strEntryPath (entry : String) : String :=
  match splitChar ':' entry.toList with
  | [] => entry
  | [_] => entry
  | x :: _ :: _ => ⟨x⟩

/-- The shared body of the Enter open branch on a selected match entry
(src/vuit/contexts/stringsearch.rs lines 76-120 and
stringsearchreplace.rs lines 30-87, identical state effects): push the
entry's path onto `recent_files` unless the *full* entry string is
already present, trim to five, run the editor (external), and clear the
match selection. -/
def openFromStrList (s : VuitState) : VuitState :=
  let entry := s.file_str_list.getD s.hltd_file ""
  let s :=
    if ¬ s.recent_files.contains entry then
      { s with recent_files := s.recent_files ++ [strEntryPath entry] }
    else s
  let s :=
    if s.recent_files.length > 5 then { s with recent_files := s.recent_files.tail }
    else s
  { s with file_str_list_state := none }

/-- The navigation-down body repeated verbatim in the fileviewer,
stringsearch and stringsearchreplace handlers: bail out when the focused
list is empty, increment the index, clamp it to the focused list's last
valid position, update that list's selection, refresh the preview. -/
def navDown (s : VuitState) : VuitState :=
  let listEmpty : Bool :=
    match s.switch_focus with
    | Focus.Recentfiles => s.recent_files.isEmpty
    | Focus.Filelist => s.file_list.isEmpty
    | Focus.Filestrlist => s.file_str_list.isEmpty
  if listEmpty then s
  else
    let s := { s with hltd_file := s.hltd_file + 1 }
    let s :=
      match s.switch_focus with
      | Focus.Recentfiles =>
        let s :=
          if s.hltd_file ≥ s.recent_files.length ∧ s.recent_files ≠ [] then
            { s with hltd_file := s.recent_files.length - 1 }
          else s
        { s with recent_state := some s.hltd_file }
      | Focus.Filelist =>
        let s :=
          if s.hltd_file ≥ s.file_list.length ∧ s.file_list ≠ [] then
            { s with hltd_file := s.file_list.length - 1 }
          else s
        { s with file_list_state := some s.hltd_file }
      | Focus.Filestrlist =>
        let s :=
          if s.hltd_file ≥ s.file_str_list.length ∧ s.file_str_list ≠ [] then
            { s with hltd_file := s.file_str_list.length - 1 }
          else s
        { s with file_str_list_state := some s.hltd_file }
    { s with preview := runPreviewCmd s }

/-- The navigation-up body repeated verbatim in the same three handlers. -/
def navUp (s : VuitState) : VuitState :=
  let listEmpty : Bool :=
    match s.switch_focus with
    | Focus.Recentfiles => s.recent_files.isEmpty
    | Focus.Filelist => s.file_list.isEmpty
    | Focus.Filestrlist => s.file_str_list.isEmpty
  if listEmpty then s
  else if s.hltd_file = 0 then s
  else
    let s := { s with hltd_file := s.hltd_file - 1 }
    let s :=
      match s.switch_focus with
      | Focus.Recentfiles => { s with recent_state := some s.hltd_file }
      | Focus.Filelist => { s with file_list_state := some s.hltd_file }
      | Focus.Filestrlist => { s with file_str_list_state := some s.hltd_file }
    { s with preview := runPreviewCmd s }

/-- The Tab body repeated verbatim in the same three handlers: move the
focus to the next non-empty list, reset the index to zero, move the
selection, refresh the preview unless the new focus list is empty. -/
def tabSwitch (s : VuitState) : VuitState :=
  let s :=
    match s.switch_focus with
    | Focus.Recentfiles =>
      let s := if s.file_str_list ≠ [] then { s with switch_focus := Focus.Filestrlist } else s
      if s.file_list ≠ [] then { s with switch_focus := Focus.Filelist } else s
    | Focus.Filelist =>
      let s := if s.recent_files ≠ [] then { s with switch_focus := Focus.Recentfiles } else s
      if s.file_str_list ≠ [] then { s with switch_focus := Focus.Filestrlist } else s
    | Focus.Filestrlist =>
      let s := if s.file_list ≠ [] then { s with switch_focus := Focus.Filelist } else s
      if s.recent_files ≠ [] then { s with switch_focus := Focus.Recentfiles } else s
  match s.switch_focus with
  | Focus.Recentfiles =>
    let s := { s with file_list_state := none, file_str_list_state := none, hltd_file := 0 }
    let s := { s with recent_state := some s.hltd_file }
    if s.recent_files = [] then s else { s with preview := runPreviewCmd s }
  | Focus.Filelist =>
    let s := { s with file_str_list_state := none, recent_state := none, hltd_file := 0 }
    let s := { s with file_list_state := some s.hltd_file }
    if s.file_list = [] then s else { s with preview := runPreviewCmd s }
  | Focus.Filestrlist =>
    let s := { s with file_list_state := none, recent_state := none, hltd_file := 0 }
    let s := { s with file_str_list_state := some s.hltd_file }
    if s.file_str_list = [] then s else { s with preview := runPreviewCmd s }

/-- The remove-one-character helper for Backspace (`String::pop`). -/
def popStr (s : String) : String :=
  ⟨s.toList.dropLast⟩

/-- Embeds the fileviewer Enter push-to-recent epilogue
(src/vuit/contexts/fileviewer.rs lines 213-222): push the opened file-list
entry unless already present (only when the file list had focus), then
trim the recent list to five by evicting the oldest. -/
def fileviewerPushRecent (s : VuitState) : VuitState :=
  let s :=
    if s.switch_focus = Focus.Filelist ∧
        ¬ s.recent_files.contains (s.file_list.getD s.hltd_file "") then
      { s with recent_files := s.recent_files ++ [s.file_list.getD s.hltd_file ""] }
    else s
  if s.recent_files.length > 5 then { s with recent_files := s.recent_files.tail }
  else s

/-- Embeds the fileviewer (and Help) key handler
(src/vuit/contexts/fileviewer.rs, `handler`). -/
def fileviewerHandler (env : Env) (s : VuitState) (k : Key) : VuitState :=
  match k with
  | Key.char c =>
    let s := { s with typed_input := s.typed_input.push c }
    let s := { s with file_list := runSearchCmd env.matcher s.fd_list s.typed_input }
    let s :=
      match s.switch_focus with
      | Focus.Recentfiles =>
        let s := { s with recent_state := some s.hltd_file }
        if s.hltd_file ≥ s.recent_files.length ∧ s.recent_files ≠ [] then
          { s with hltd_file := s.recent_files.length - 1 }
        else s
      | Focus.Filelist =>
        let s := { s with file_list_state := some s.hltd_file }
        if s.hltd_file ≥ s.file_list.length ∧ s.file_list ≠ [] then
          { s with hltd_file := s.file_list.length - 1 }
        else s
      | Focus.Filestrlist =>
        let s := { s with file_str_list_state := some s.hltd_file }
        if s.hltd_file ≥ s.file_str_list.length ∧ s.file_str_list ≠ [] then
          { s with hltd_file := s.file_str_list.length - 1 }
        else s
    { s with preview := runPreviewCmd s }
  | Key.backspace =>
    if s.typed_input = "" then s
    else
      let s := { s with typed_input := popStr s.typed_input }
      let s := { s with file_list := runSearchCmd env.matcher s.fd_list s.typed_input }
      let s :=
        match s.switch_focus with
        | Focus.Recentfiles =>
          let s := { s with recent_state := some s.hltd_file }
          if s.hltd_file ≥ s.recent_files.length ∧ s.recent_files ≠ [] then
            { s with hltd_file := s.recent_files.length - 1 }
          else s
        | Focus.Filelist =>
          let s := { s with file_list_state := some s.hltd_file }
          if s.hltd_file ≥ s.file_list.length ∧ s.file_list ≠ [] then
            { s with hltd_file := s.file_list.length - 1 }
          else s
        | Focus.Filestrlist =>
          let s := { s with file_str_list_state := some s.hltd_file }
          if s.hltd_file ≥ s.file_str_list.length ∧ s.file_str_list ≠ [] then
            { s with hltd_file := s.file_str_list.length - 1 }
          else s
      { s with preview := runPreviewCmd s }
  | Key.enter =>
    match s.switch_focus with
    | Focus.Recentfiles =>
      if s.hltd_file ≥ s.recent_files.length then s
      else fileviewerPushRecent s
    | Focus.Filelist =>
      if s.hltd_file ≥ s.file_list.length then s
      else fileviewerPushRecent s
    | Focus.Filestrlist =>
      if s.hltd_file ≥ s.file_str_list.length then s
      else fileviewerPushRecent s
  | Key.ctrlF =>
    { s with
      current_filter := s.typed_input,
      typed_input := "",
      prev_context := s.switch_context,
      switch_context := Context.Stringsearch }
  | Key.ctrlP => { s with preview_toggle := ! s.preview_toggle }
  | Key.esc => { s with exit := true }
  | Key.ctrlJ => navDown s
  | Key.down => navDown s
  | Key.ctrlK => navUp s
  | Key.up => navUp s
  | Key.tab => tabSwitch s
  | Key.ctrlR => runFdCmd env s
  | Key.ctrlN => nextColorscheme s
  | Key.ctrlT =>
    if env.tmux then s
    else
      { s with
        typed_input := "",
        prev_context := s.switch_context,
        switch_context := Context.Terminal,
        term_out := "" }
  | Key.ctrlX =>
    let absPath :=
      env.cwd ++
        (match s.switch_focus with
         | Focus.Recentfiles => s.recent_files.getD s.hltd_file ""
         | Focus.Filelist => s.file_list.getD s.hltd_file ""
         | Focus.Filestrlist => s.file_str_list.getD s.hltd_file "")
    let s :=
      if env.tmux then s
      else
        { s with
          typed_input := absPath,
          prev_context := s.switch_context,
          switch_context := Context.Terminal }
    let s := sendCmdToProcTerm s
    { s with typed_input := "", first_term_open := false }
  | Key.ctrlH =>
    if s.switch_context = Context.Help then { s with switch_context := s.prev_context }
    else { s with prev_context := s.switch_context, switch_context := Context.Help }
  | _ => s

/-- Embeds the stringsearch key handler
(src/vuit/contexts/stringsearch.rs, `handler`). -/
def stringsearchHandler (env : Env) (s : VuitState) (k : Key) : VuitState :=
  match k with
  | Key.char c => { s with typed_input := s.typed_input.push c }
  | Key.backspace =>
    if s.typed_input = "" then s else { s with typed_input := popStr s.typed_input }
  | Key.enter =>
    if s.switch_focus = Focus.Filestrlist ∧ s.file_str_list_state.isSome then
      openFromStrList s
    else
      startAsyncSearch s
  | Key.esc => { s with exit := true }
  | Key.ctrlJ => navDown s
  | Key.down => navDown s
  | Key.ctrlK => navUp s
  | Key.up => navUp s
  | Key.tab => tabSwitch s
  | Key.ctrlR => runFdCmd env s
  | Key.ctrlN => nextColorscheme s
  | Key.ctrlF =>
    let s :=
      { s with
        typed_input := "",
        file_str_list := [],
        search_progress_str := "",
        prev_context := s.switch_context,
        switch_context := Context.Fileviewer }
    { s with file_list := runSearchCmd env.matcher s.fd_list s.typed_input }
  | Key.ctrlX =>
    if s.switch_focus = Focus.Recentfiles then
      if s.recent_files.length > 0 then
        { s with
          recent_files := s.recent_files.eraseIdx s.hltd_file,
          hltd_file := 0,
          recent_state := some 0 }
      else s
    else s
  | Key.ctrlH =>
    if s.switch_context = Context.Help then
      { s with prev_context := Context.Help, switch_context := Context.Help }
    else
      { s with prev_context := s.switch_context, switch_context := Context.Help }
  | _ => s

/-- Embeds the stringsearchreplace key handler
(src/vuit/contexts/stringsearchreplace.rs, `handler`). -/
def stringsearchreplaceHandler (env : Env) (s : VuitState) (k : Key) : VuitState :=
  match k with
  | Key.char c => { s with typed_input := s.typed_input.push c }
  | Key.backspace =>
    if s.typed_input = "" then s else { s with typed_input := popStr s.typed_input }
  | Key.enter =>
    if s.switch_focus = Focus.Filestrlist ∧ s.file_str_list_state.isSome then
      openFromStrList s
    else
      applyReplace s
  | Key.esc => { s with exit := true }
  | Key.ctrlT => s
  | Key.ctrlP => { s with preview_toggle := ! s.preview_toggle }
  | Key.ctrlJ => navDown s
  | Key.down => navDown s
  | Key.ctrlK => navUp s
  | Key.up => navUp s
  | Key.tab => tabSwitch s
  | Key.ctrlR =>
    { s with
      current_str_filter := "",
      typed_input := "",
      switch_context := Context.Stringsearch }
  | Key.ctrlN => nextColorscheme s
  | Key.ctrlF =>
    let s :=
      { s with
        typed_input := "",
        file_str_list := [],
        search_progress_str := "",
        current_str_filter := "",
        prev_context := s.switch_context,
        switch_context := Context.Fileviewer }
    { s with file_list := runSearchCmd env.matcher s.fd_list s.typed_input }
  | Key.ctrlX =>
    if s.switch_focus = Focus.Recentfiles then
      if s.recent_files.length > 0 then
        { s with
          recent_files := s.recent_files.eraseIdx s.hltd_file,
          hltd_file := 0,
          recent_state := some 0 }
      else s
    else s
  | Key.ctrlH =>
    if s.switch_context = Context.Help then
      { s with prev_context := Context.Help, switch_context := Context.Help }
    else
      { s with prev_context := s.switch_context, switch_context := Context.Help }
  | _ => s

/-- Embeds the terminal key handler
(src/vuit/contexts/terminal.rs, `handler`). -/
def terminalHandler (env : Env) (s : VuitState) (k : Key) : VuitState :=
  match k with
  | Key.char c => { s with typed_input := s.typed_input.push c }
  | Key.backspace =>
    if s.typed_input = "" then s else { s with typed_input := popStr s.typed_input }
  | Key.enter =>
    let s := sendCmdToProcTerm s
    { s with typed_input := "", process_out := [], first_term_open := false }
  | Key.esc => { s with exit := true }
  | Key.ctrlP => { s with preview_toggle := ! s.preview_toggle }
  | Key.ctrlR => runFdCmd env s
  | Key.ctrlN => nextColorscheme s
  | Key.ctrlT =>
    { s with prev_context := s.switch_context, switch_context := Context.Fileviewer }
  | Key.ctrlC =>
    match s.command_sender with
    | some g => { s with sent_log := s.sent_log ++ [(g, String.singleton (Char.ofNat 3))] }
    | none => s
  | Key.ctrlH =>
    if s.switch_context = Context.Help then
      { s with prev_context := Context.Help, switch_context := Context.Help }
    else
      { s with prev_context := s.switch_context, switch_context := Context.Help }
  | _ => s

/-- Embeds `dispatch_event` (src/vuit/events.rs) together with the two
background sources: the idle branch installs a finished search when the
shared counter has reached the current file-list length (consuming the
result slot and clearing the in-progress flag); a key press is routed to
the active context's handler (Help reuses the fileviewer handler); a
worker completion computes its matches over the current disk and writes
the shared slot, bumping the shared counter once per scanned file; a PTY
reader line is appended to the shared output buffer. -/
def dispatchStep (env : Env) (s : VuitState) : AEvent → VuitState
  | AEvent.idle =>
    if s.search_in_progress ∧ s.search_progress = s.file_list.length then
      match s.search_result with
      | some data =>
        { s with
          file_str_list := data,
          search_in_progress := false,
          search_result := none,
          consumed := s.consumed + 1 }
      | none => s
    else s
  | AEvent.key k =>
    match s.switch_context with
    | Context.Fileviewer => fileviewerHandler env s k
    | Context.Stringsearch => stringsearchHandler env s k
    | Context.Stringsearchreplace => stringsearchreplaceHandler env s k
    | Context.Terminal => terminalHandler env s k
    | Context.Help => fileviewerHandler env s k
  | AEvent.workerFinish =>
    match s.pending_jobs with
    | [] => s
    | j :: rest =>
      let r := workerRun s.files j.1 j.2
      { s with
        pending_jobs := rest,
        search_progress := s.search_progress + r.1,
        search_result := some r.2 }
  | AEvent.termLine line =>
    if s.next_gen > 0 then { s with process_out := s.process_out ++ [line] } else s

/-- The `Vuit::default()` state holding the given parsed configuration and
the initial disk. -/
def defaultState (cfg : VuitRC) (files0 : String → Option String) : VuitState :=
  { config_colorscheme := cfg.colorscheme
    config_highlight_color := cfg.highlight_color
    config_editor := cfg.editor
    colorscheme_index := 0
    typed_input := ""
    file_list := []
    file_str_list := []
    preview := []
    recent_files := []
    fd_list := []
    term_out := ""
    current_filter := ""
    current_str_filter := ""
    search_progress_str := ""
    bash_process := none
    command_sender := none
    process_out := []
    search_in_progress := false
    search_progress := 0
    search_result := none
    switch_focus := Focus.Filelist
    switch_context := Context.Fileviewer
    prev_context := Context.Fileviewer
    hltd_file := 0
    file_list_state := none
    file_str_list_state := none
    recent_state := none
    first_term_open := false
    preview_toggle := false
    exit := false
    files := files0
    next_gen := 0
    sent_log := []
    pending_jobs := []
    spawned := 0
    consumed := 0 }

/-- Embeds the startup sequence of `Vuit::run` (src/vuit/mod.rs lines
135-158): reset focus and context, build the index, run the fuzzy filter,
select and clamp the highlighted file, build the preview, and start the
terminal session. -/
def initState (env : Env) : VuitState :=
  let s := defaultState env.config env.files0
  let s := { s with switch_focus := Focus.Filelist, switch_context := Context.Fileviewer }
  let s := runFdCmd env s
  let s := { s with file_list := runSearchCmd env.matcher s.fd_list s.typed_input }
  let s := { s with file_list_state := some s.hltd_file }
  let s :=
    if s.hltd_file ≥ s.file_list.length ∧ s.file_list ≠ [] then
      { s with hltd_file := s.file_list.length - 1 }
    else s
  let s := { s with preview := runPreviewCmd s }
  startTerm s

/-- Run the dispatcher over a sequence of events from the initial state. -/
def runVuit (env : Env) (evs : List AEvent) : VuitState :=
  evs.foldl (dispatchStep env) (initState env)

/-- A state is reachable when some event sequence produces it. -/
def ReachableVuit (env : Env) (s : VuitState) : Prop :=
  ∃ evs : List AEvent, s = runVuit env evs

/-! ### Shared concrete scenarios used by the witnesses and
counterexamples -/

/-- A sequence of plain character key presses. -/
def charKeys (s : String) : List AEvent :=
  s.toList.map fun c => AEvent.key (Key.char c)

/-- A small concrete world: one indexed file `a.txt` of six lines, a
matcher that scores everything (as the skim matcher does on an empty
query), no tmux. -/
def demoEnv : Env :=
  { matcher := fun _ _ => some 0,
    fdList := ["a.txt"],
    files0 := fun p =>
      if p = "a.txt" then some "hello hello\nhello\nhello\nhello\nhello\nhello"
      else none,
    tmux := false,
    cwd := "/w/",
    config := VuitRC.default }

/-- A concrete disk for the replace scenarios: `a.txt` is unreadable,
`b.txt` has two lines. -/
def demoFs : String → Option String := fun p =>
  if p = "a.txt" then none
  else if p = "b.txt" then some "bar\nkeep"
  else none

/-- Enter string-search mode and press Enter twice without waiting for the
first job: two search workers get spawned. -/
def traceTwoSearches : List AEvent :=
  [AEvent.key Key.ctrlF, AEvent.key Key.enter]

/-- Search for `hello` (six matches), move the highlight down to the last
match, open it (clearing the selection), extend the query to
`hello hello` (one match) and search again; the shorter result is then
installed by the idle tick. -/
def traceStaleIndex : List AEvent :=
  [AEvent.key Key.ctrlF] ++ charKeys "hello" ++
  [AEvent.key Key.enter, AEvent.workerFinish, AEvent.idle, AEvent.key Key.tab,
   AEvent.key Key.down, AEvent.key Key.down, AEvent.key Key.down,
   AEvent.key Key.down, AEvent.key Key.down,
   AEvent.key Key.enter] ++ charKeys " hello" ++
  [AEvent.key Key.enter, AEvent.workerFinish, AEvent.idle]

/-- Open `a.txt` from the file list (recent list now holds it), search for
`hello`, focus the match list: the next Enter opens a match of the same
file. -/
def traceReopen : List AEvent :=
  [AEvent.key Key.enter, AEvent.key Key.ctrlF] ++ charKeys "hello" ++
  [AEvent.key Key.enter, AEvent.workerFinish, AEvent.idle, AEvent.key Key.tab]

/-- The demo world started with a configured colorscheme (`cyan`) that is
not the palette entry at the initial index 0. -/
def demoEnvCyan : Env :=
  { demoEnv with
    config := { colorscheme := "cyan", highlight_color := "blue", editor := "vim" } }

/-! ### C10: empty filter makes the replace operation a no-op -/

/-- C10.  If the recorded filter string is empty, `replace_string_occurences`
is a complete no-op — the disk, the held ContentMatch list and the typed
input buffer are all unchanged — whereas with a non-empty filter the
operation ends by clearing both the match list and the typed input. -/
theorem C10_empty_filter_noop (s : VuitState) :
    (s.current_str_filter = "" → applyReplace s = s) ∧
    (s.current_str_filter ≠ "" →
      (applyReplace s).file_str_list = [] ∧ (applyReplace s).typed_input = "" ∧
      (applyReplace s).recent_files = s.recent_files) := by
  constructor
  · intro h
    simp only [applyReplace, replaceStringOccurences]
    rw [if_pos h]
  · intro h
    simp [applyReplace, replaceStringOccurences, h]

/-- Witness for C10 at concrete states: the default state (empty filter) is
fixed by the replace operation, and a state with filter `bar` ends with a
cleared match list and input. -/
theorem C10_empty_filter_noop_witness :
    applyReplace (defaultState VuitRC.default demoFs) = defaultState VuitRC.default demoFs ∧
    (applyReplace { defaultState VuitRC.default demoFs with
        current_str_filter := "bar", file_str_list := ["b.txt:1:bar"],
        typed_input := "baz" }).file_str_list = [] :=
  ⟨(C10_empty_filter_noop (defaultState VuitRC.default demoFs)).1 rfl,
   ((C10_empty_filter_noop { defaultState VuitRC.default demoFs with
        current_str_filter := "bar", file_str_list := ["b.txt:1:bar"],
        typed_input := "baz" }).2 (by decide)).1⟩

/-! ### C8: configuration loading -/

/-- C8 counterexample.  The claim says an existing configuration file with
malformed JSON makes the program print a parse error and exit cleanly
without starting the UI.  An existing but empty file is malformed JSON
(every JSON parser, serde_json included, rejects the empty document), yet
the control flow of `run` never reaches the parser: the `is_empty` guard
routes empty contents to the built-in defaults and the UI starts.  The
parser argument below rejects every document — in particular the empty
one — and the outcome is still `startUI` with defaults, while any
non-empty malformed document does exit. -/
theorem C8_counterexample :
    configOutcome (some "") (fun _ => none) = ConfigOutcome.startUI VuitRC.default ∧
    configOutcome (some "x") (fun _ => none) = ConfigOutcome.parseErrorExit := by
  constructor <;> rfl

/-- C8 amended.  A missing file yields the built-in defaults; an existing
file with *non-empty* malformed contents prints the parse error and exits
cleanly without starting the UI; an existing *empty* file — although not
valid JSON — also yields the defaults, because the contents are never
parsed; and well-formed non-empty contents start the UI with the parsed
configuration. -/
theorem C8_amended (parse : String → Option VuitRC) (contents : String) :
    configOutcome none parse = ConfigOutcome.startUI VuitRC.default ∧
    (contents ≠ "" → parse contents = none →
      configOutcome (some contents) parse = ConfigOutcome.parseErrorExit) ∧
    configOutcome (some "") parse = ConfigOutcome.startUI VuitRC.default ∧
    (∀ cfg, contents ≠ "" → parse contents = some cfg →
      configOutcome (some contents) parse = ConfigOutcome.startUI cfg) := by
  refine ⟨rfl, fun hne hp => ?_, rfl, fun cfg hne hp => ?_⟩
  · simp [configOutcome, hne, hp]
  · simp [configOutcome, hne, hp]

/-- Witness for C8 amended at a concrete parser and document. -/
theorem C8_amended_witness :
    configOutcome (some "not json") (fun _ => none) = ConfigOutcome.parseErrorExit :=
  (C8_amended (fun _ => none) "not json").2.1 (by decide) rfl

/-! ### C4: terminal restart and the shared output buffer -/

/-- C4 counterexample.  The claim says the old buffer is discarded at
restart.  In a reachable state whose shared buffer holds a line produced
by the old session's reader thread, `restart_terminal_session` (kill,
sleep, `start_term`) leaves the buffer exactly as it was — `start_term`
hands the new reader a clone of the *same* buffer and nothing clears
it — so the old session's output is still observable after the
restart. -/
theorem C4_counterexample :
    (runVuit demoEnv [AEvent.termLine "old line"]).process_out = ["old line"] ∧
    (restartTerminalSession
      (runVuit demoEnv [AEvent.termLine "old line"])).process_out = ["old line"] := by
  constructor <;> rfl

/-- C4 amended.  `restart_terminal_session` itself never discards the
shared output buffer (the new session appends to the same buffer); the
buffer is instead cleared by the terminal Enter handler immediately after
each send — including the send whose reserved word triggered the
restart — so the buffer observed right after an Enter-driven restart is
empty. -/
theorem C4_amended (env : Env) (s : VuitState) :
    (restartTerminalSession s).process_out = s.process_out ∧
    (terminalHandler env s Key.enter).process_out = [] := by
  exact ⟨rfl, rfl⟩

/-! ### C2: a second search can be spawned while one is in flight -/

/-- C2 counterexample.  After entering string-search mode and pressing
Enter once, a search job is in flight (`search_in_progress` is set, one
job spawned, none consumed); pressing Enter again — before any worker
completion or poll tick — spawns a second concurrent worker: the
dispatcher never consults `search_in_progress`. -/
theorem C2_counterexample :
    (runVuit demoEnv traceTwoSearches).search_in_progress = true ∧
    (runVuit demoEnv traceTwoSearches).spawned = 1 ∧
    (runVuit demoEnv traceTwoSearches).consumed = 0 ∧
    (dispatchStep demoEnv (runVuit demoEnv traceTwoSearches)
      (AEvent.key Key.enter)).spawned = 2 ∧
    (dispatchStep demoEnv (runVuit demoEnv traceTwoSearches)
      (AEvent.key Key.enter)).consumed = 0 ∧
    (dispatchStep demoEnv (runVuit demoEnv traceTwoSearches)
      (AEvent.key Key.enter)).pending_jobs.length = 2 := by
  refine ⟨by decide, by decide, by decide, by decide, by decide, by decide⟩

/-- C2 amended.  The dispatcher does not guard the start-search action: in
string-search context, whenever the Enter key is not captured by a
selected match entry, `start_async_search` runs unconditionally —
regardless of `search_in_progress` — spawning one more worker and
resetting the shared progress counter. -/
theorem C2_amended (env : Env) (s : VuitState)
    (hc : s.switch_context = Context.Stringsearch)
    (hsel : ¬ (s.switch_focus = Focus.Filestrlist ∧ s.file_str_list_state.isSome)) :
    (dispatchStep env s (AEvent.key Key.enter)).spawned = s.spawned + 1 ∧
    (dispatchStep env s (AEvent.key Key.enter)).search_in_progress = true ∧
    (dispatchStep env s (AEvent.key Key.enter)).search_progress = 0 := by
  simp [dispatchStep, hc, stringsearchHandler, hsel, startAsyncSearch]

/-- Witness for C2 amended: in the concrete in-flight state reached by
`traceTwoSearches`, the Enter key spawns a second job. -/
theorem C2_amended_witness :
    (dispatchStep demoEnv (runVuit demoEnv traceTwoSearches)
      (AEvent.key Key.enter)).spawned = (runVuit demoEnv traceTwoSearches).spawned + 1 :=
  (C2_amended demoEnv (runVuit demoEnv traceTwoSearches) (by decide)
    (by decide)).1

/-! ### C9: advancing the color scheme N times -/

/-- Index arithmetic of one advance. -/
theorem nextColorscheme_index (s : VuitState) :
    (nextColorscheme s).colorscheme_index = (s.colorscheme_index + 1) % 10 := rfl

/-- After an advance the active scheme is the palette entry at the new
index. -/
theorem nextColorscheme_scheme (s : VuitState) :
    (nextColorscheme s).config_colorscheme =
      COLORS.getD (nextColorscheme s).colorscheme_index "" := rfl

/-- Iterating the advance adds to the index modulo the palette size. -/
theorem iterate_nextColorscheme_index (k : Nat) :
    ∀ s : VuitState, s.colorscheme_index < 10 →
      (Nat.iterate nextColorscheme k s).colorscheme_index =
        (s.colorscheme_index + k) % 10 := by
  induction k with
  | zero =>
    intro s h
    simpa using (Nat.mod_eq_of_lt h).symm
  | succ k ih =>
    intro s h
    rw [Function.iterate_succ_apply]
    have h1 : (nextColorscheme s).colorscheme_index < 10 := by
      rw [nextColorscheme_index]; exact Nat.mod_lt _ (by omega)
    rw [ih (nextColorscheme s) h1, nextColorscheme_index, Nat.mod_add_mod]
    congr 1
    omega

/-- C9 counterexample.  The initial state is reachable (it is the start
state of a session whose configuration file names the scheme `cyan`), and
the palette has N = 10 schemes; yet ten advances land on `lightblue`
(the palette entry at index 0), not on the original `cyan`, because
`colorscheme_index` starts at 0 regardless of the configured scheme. -/
theorem C9_counterexample :
    ReachableVuit demoEnvCyan (initState demoEnvCyan) ∧
    COLORS.length = 10 ∧
    (initState demoEnvCyan).config_colorscheme = "cyan" ∧
    (runVuit demoEnvCyan
      (List.replicate 10 (AEvent.key Key.ctrlN))).config_colorscheme = "lightblue" ∧
    ("lightblue" : String) ≠ "cyan" :=
  ⟨⟨[], rfl⟩, by decide, by decide, by decide, by decide⟩

/-- C9 amended.  The advance-color-scheme action (routed by every context
to `next_colorscheme`) brings `colorscheme_index` back to its original
value after exactly N = 10 applications; the active scheme string returns
to its original value provided it already agrees with the palette entry at
the current index — which holds after any advance and under the default
configuration, but not in an initial state whose configured scheme
differs from the palette entry at index 0. -/
theorem C9_amended (s : VuitState) (h : s.colorscheme_index < COLORS.length) :
    (∀ env : Env, dispatchStep env s (AEvent.key Key.ctrlN) = nextColorscheme s) ∧
    (Nat.iterate nextColorscheme COLORS.length s).colorscheme_index =
      s.colorscheme_index ∧
    (s.config_colorscheme = COLORS.getD s.colorscheme_index "" →
      (Nat.iterate nextColorscheme COLORS.length s).config_colorscheme =
        s.config_colorscheme) := by
  have hlen : COLORS.length = 10 := rfl
  have h10 : s.colorscheme_index < 10 := by omega
  have hidx : (Nat.iterate nextColorscheme COLORS.length s).colorscheme_index =
      s.colorscheme_index := by
    rw [hlen, iterate_nextColorscheme_index 10 s h10, Nat.add_mod_right,
      Nat.mod_eq_of_lt h10]
  refine ⟨fun env => ?_, hidx, fun hs => ?_⟩
  · cases hctx : s.switch_context <;>
      simp [dispatchStep, hctx, fileviewerHandler, stringsearchHandler,
        stringsearchreplaceHandler, terminalHandler]
  · have h9 : Nat.iterate nextColorscheme COLORS.length s =
        nextColorscheme (Nat.iterate nextColorscheme 9 s) := by
      rw [hlen]
      exact Function.iterate_succ_apply' nextColorscheme 9 s
    rw [h9, nextColorscheme_scheme, ← h9, hidx, hs]

/-- Witness for C9 amended: under the default configuration (scheme
`lightblue` = palette entry 0), ten advances restore the scheme. -/
theorem C9_amended_witness :
    (Nat.iterate nextColorscheme COLORS.length (initState demoEnv)).config_colorscheme =
      (initState demoEnv).config_colorscheme :=
  ((C9_amended (initState demoEnv) (by decide)).2.2 (by decide))

/-! ### C3: highlighted index versus list length -/

/-- C3 counterexample.  A reachable, at-rest state (no handler mid-run: the
last event was the idle tick that installed a completed search) where the
focused match list is non-empty yet the highlighted index is 5 ≥ 1 = its
length: the poll step installed the one-match result of the second search
without reclamping the index left at 5 by the earlier six-match list. -/
theorem C3_counterexample :
    (runVuit demoEnv traceStaleIndex).switch_focus = Focus.Filestrlist ∧
    (runVuit demoEnv traceStaleIndex).file_str_list.length = 1 ∧
    (runVuit demoEnv traceStaleIndex).hltd_file = 5 ∧
    (runVuit demoEnv traceStaleIndex).search_in_progress = false ∧
    ¬ (runVuit demoEnv traceStaleIndex).hltd_file <
        (runVuit demoEnv traceStaleIndex).file_str_list.length :=
  ⟨by decide, by decide, by decide, by decide, by decide⟩

/-- C3 amended.  The key handlers that mutate the focused list do reclamp
the highlighted index (shown for the navigation-down action on the match
list), but the idle-tick step that installs a completed content-search
result never touches the highlighted index, so installing a shorter
result can leave the index out of bounds until some later clamping
handler runs. -/
theorem C3_amended :
    (∀ (env : Env) (s : VuitState),
      (dispatchStep env s AEvent.idle).hltd_file = s.hltd_file) ∧
    (∀ (env : Env) (s : VuitState),
      s.switch_context = Context.Stringsearch →
      s.switch_focus = Focus.Filestrlist →
      s.file_str_list ≠ [] →
      (dispatchStep env s (AEvent.key Key.down)).hltd_file <
        (dispatchStep env s (AEvent.key Key.down)).file_str_list.length) := by
  constructor
  · intro env s
    simp only [dispatchStep]
    split
    · split <;> rfl
    · rfl
  · intro env s hc hf hne
    have hE : s.file_str_list.isEmpty = false := by
      simp [List.isEmpty_iff, hne]
    have hpos : 0 < s.file_str_list.length := List.length_pos.mpr hne
    simp only [dispatchStep, hc, stringsearchHandler, navDown, hf, hE]
    simp only [Bool.false_eq_true, if_false]
    split_ifs with h1 <;> simp_all

/-- Witness for C3 amended, at the stale-index state itself: the idle tick
leaves the index at 5, while a navigation-down immediately reclamps it
below the (unit) list length. -/
theorem C3_amended_witness :
    (dispatchStep demoEnv (runVuit demoEnv traceStaleIndex) AEvent.idle).hltd_file =
      (runVuit demoEnv traceStaleIndex).hltd_file ∧
    (dispatchStep demoEnv (runVuit demoEnv traceStaleIndex)
        (AEvent.key Key.down)).hltd_file <
      (dispatchStep demoEnv (runVuit demoEnv traceStaleIndex)
        (AEvent.key Key.down)).file_str_list.length :=
  ⟨C3_amended.1 demoEnv (runVuit demoEnv traceStaleIndex),
   C3_amended.2 demoEnv (runVuit demoEnv traceStaleIndex)
     (by decide) (by decide) (by decide)⟩

/-! ### C6: the fuzzy filter's output -/

/-- The descending-by-score comparison is total. -/
instance : IsTotal (Int × String) (fun a b => b.1 ≤ a.1) :=
  ⟨fun a b => le_total b.1 a.1⟩

/-- The descending-by-score comparison is transitive. -/
instance : IsTrans (Int × String) (fun a b => b.1 ≤ a.1) :=
  ⟨fun _ _ _ hab hbc => le_trans hbc hab⟩

/-- C6.  The fuzzy filter's output consists of exactly the indexed paths
the matcher scores at all (paths with no match are excluded), each
sanitized for display; the underlying ranked list is ordered by
non-increasing score, and the output is its projection. -/
theorem C6_fuzzy_filter (matcher : String → String → Option Int)
    (fd : List String) (q : String) :
    (∀ x, x ∈ runSearchCmd matcher fd q ↔
      ∃ p ∈ fd, (matcher p q).isSome ∧ x = cleanUtf8Content p) ∧
    List.Sorted (fun a b => b.1 ≤ a.1) (rankedMatches matcher fd q) ∧
    runSearchCmd matcher fd q =
      (rankedMatches matcher fd q).map fun p => cleanUtf8Content p.2 := by
  refine ⟨fun x => ?_, List.sorted_insertionSort _ _, rfl⟩
  unfold runSearchCmd rankedMatches
  rw [List.mem_map]
  constructor
  · rintro ⟨a, ha, rfl⟩
    have ha2 : a ∈ fd.filterMap fun item =>
        (matcher item q).map fun score => (score, item) :=
      (List.perm_insertionSort _ _).mem_iff.mp ha
    obtain ⟨p, hp, hg⟩ := List.mem_filterMap.mp ha2
    obtain ⟨sc, hsc, heq⟩ := Option.map_eq_some'.mp hg
    refine ⟨p, hp, by simp [hsc], ?_⟩
    rw [← heq]
  · rintro ⟨p, hp, hsome, rfl⟩
    obtain ⟨sc, hsc⟩ := Option.isSome_iff_exists.mp hsome
    refine ⟨(sc, p), ?_, rfl⟩
    exact (List.perm_insertionSort _ _).mem_iff.mpr
      (List.mem_filterMap.mpr ⟨p, hp, by simp [hsc]⟩)

/-- A concrete matcher for the scenario of the spec: `src/main.rs` scores
50 on the query, `README.md` scores 10, `LICENSE` does not match. -/
def demoMatcher : String → String → Option Int := fun item _ =>
  if item = "LICENSE" then none
  else if item = "src/main.rs" then some 50
  else some 10

/-- Witness for C6: on the spec's scenario the matching paths are kept and
the non-matching `LICENSE` is excluded. -/
theorem C6_fuzzy_filter_witness :
    "src/main.rs" ∈ runSearchCmd demoMatcher ["src/main.rs", "README.md", "LICENSE"] "mai" ∧
    "LICENSE" ∉ runSearchCmd demoMatcher ["src/main.rs", "README.md", "LICENSE"] "mai" :=
  ⟨((C6_fuzzy_filter demoMatcher ["src/main.rs", "README.md", "LICENSE"] "mai").1
      "src/main.rs").mpr ⟨"src/main.rs", by decide, by decide, by decide⟩,
   fun hmem => absurd
     (((C6_fuzzy_filter demoMatcher ["src/main.rs", "README.md", "LICENSE"] "mai").1
        "LICENSE").mp hmem) (by decide)⟩

/-! ### C5: the content-search worker's progress counter and result -/

/-- Every scanned file bumps the counter exactly once. -/
theorem scanFile_fst (fs : String → Option String) (search p : String) :
    (scanFile fs search p).1 = 1 := by
  cases h : fs p <;> simp [scanFile, h]

/-- The per-file counter contributions sum to the number of files. -/
theorem sum_scan_ones (fs : String → Option String) (search : String) :
    ∀ l : List String, (l.map fun p => (scanFile fs search p).1).sum = l.length := by
  intro l
  induction l with
  | nil => simp
  | cons p t ih => simp [scanFile_fst, ih, Nat.add_comm]

/-- Unrolling of the worker's fold. -/
theorem workerRun_foldl (fs : String → Option String) (search : String) :
    ∀ (l : List String) (acc : Nat × List String),
      (l.foldl (fun acc p =>
          let r := scanFile fs search p
          (acc.1 + r.1, acc.2 ++ r.2)) acc) =
        (acc.1 + (l.map fun p => (scanFile fs search p).1).sum,
         acc.2 ++ l.flatMap fun p => (scanFile fs search p).2) := by
  intro l
  induction l with
  | nil => intro acc; simp
  | cons p t ih =>
    intro acc
    simp [List.foldl_cons, ih, Nat.add_assoc, List.append_assoc]

/-- C5.  For a fixed file list and query: every file — including one whose
open fails, which counts as scanned with zero matches — bumps the shared
progress counter exactly once, so the counter climbs strictly from 0 to
the file-list length; the worker's collected result is the complete match
sequence over the whole list; and the worker-completion step writes
exactly that sequence into the shared result slot once, consuming the
job. -/
theorem C5_worker_progress (fs : String → Option String) (search : String)
    (l : List String) :
    (∀ p, (scanFile fs search p).1 = 1) ∧
    (∀ p, fs p = none → scanFile fs search p = (1, [])) ∧
    progressAfter fs search l 0 = 0 ∧
    (∀ k, k < l.length →
      progressAfter fs search l (k + 1) = progressAfter fs search l k + 1) ∧
    progressAfter fs search l l.length = l.length ∧
    (workerRun fs search l).1 = l.length ∧
    (workerRun fs search l).2 = (l.flatMap fun p => (scanFile fs search p).2) ∧
    (∀ (env : Env) (s : VuitState) (rest : List (String × List String)),
      s.pending_jobs = (search, l) :: rest → s.files = fs →
      (dispatchStep env s AEvent.workerFinish).search_result =
          some (l.flatMap fun p => (scanFile fs search p).2) ∧
      (dispatchStep env s AEvent.workerFinish).search_progress =
          s.search_progress + l.length ∧
      (dispatchStep env s AEvent.workerFinish).pending_jobs = rest) := by
  have hrun := workerRun_foldl fs search l (0, [])
  have hsum := sum_scan_ones fs search l
  refine ⟨scanFile_fst fs search, ?_, ?_, ?_, ?_, ?_, ?_, ?_⟩
  · intro p h
    simp [scanFile, h]
  · simp [progressAfter]
  · intro k hk
    have hlen : k < (l.map fun p => (scanFile fs search p).1).length := by
      simpa using hk
    have := List.sum_take_succ (l.map fun p => (scanFile fs search p).1) k hlen
    rw [progressAfter, progressAfter, this]
    simp [scanFile_fst]
  · rw [progressAfter, List.take_of_length_le (by simp), hsum]
  · rw [workerRun, hrun]
    simpa using hsum
  · rw [workerRun, hrun]
    simp
  · intro env s rest hjobs hfiles
    have h1 : (workerRun s.files search l).1 = l.length := by
      rw [hfiles, workerRun, hrun]; simpa using hsum
    have h2 : (workerRun s.files search l).2 =
        l.flatMap fun p => (scanFile fs search p).2 := by
      rw [hfiles, workerRun, hrun]; simp
    refine ⟨?_, ?_, ?_⟩ <;> simp [dispatchStep, hjobs, h1, h2]

/-- Witness for C5 on the concrete two-file list (one unreadable file): the
counter steps from 0 to 1 to 2, the unreadable file scans to zero
matches, and the worker-completion step of the in-flight demo job installs
the complete result. -/
theorem C5_worker_progress_witness :
    progressAfter demoFs "bar" ["a.txt", "b.txt"] 1 =
      progressAfter demoFs "bar" ["a.txt", "b.txt"] 0 + 1 ∧
    scanFile demoFs "bar" "a.txt" = (1, []) ∧
    (dispatchStep demoEnv (runVuit demoEnv traceTwoSearches)
        AEvent.workerFinish).search_result =
      some (["a.txt"].flatMap fun p =>
        (scanFile (runVuit demoEnv traceTwoSearches).files "" p).2) := by
  obtain ⟨-, h2, -, h4, -, -, -, -⟩ := C5_worker_progress demoFs "bar" ["a.txt", "b.txt"]
  obtain ⟨-, -, -, -, -, -, -, h8⟩ :=
    C5_worker_progress (runVuit demoEnv traceTwoSearches).files "" ["a.txt"]
  exact ⟨h4 0 (by decide), h2 "a.txt" rfl,
    (h8 demoEnv (runVuit demoEnv traceTwoSearches) [] (by decide) rfl).1⟩

/-! ### C7: the recent-files list under open actions -/

/-- Navigation down never touches the recent list. -/
theorem navDown_recent (s : VuitState) :
    (navDown s).recent_files = s.recent_files := by
  simp only [navDown]
  split
  · rfl
  · split <;> split_ifs <;> rfl

/-- Navigation up never touches the recent list. -/
theorem navUp_recent (s : VuitState) :
    (navUp s).recent_files = s.recent_files := by
  simp only [navUp]
  split
  · rfl
  · split
    · rfl
    · split <;> rfl

/-- Switching focus never touches the recent list. -/
theorem tabSwitch_recent (s : VuitState) :
    (tabSwitch s).recent_files = s.recent_files := by
  cases hsf : s.switch_focus <;>
    simp only [tabSwitch, hsf] <;>
    split_ifs <;>
    (first | rfl | (split <;> split_ifs <;> rfl) | (split <;> rfl) | simp)

/-- Sending a command to the shell never touches the recent list. -/
theorem sendCmdToProcTerm_recent (s : VuitState) :
    (sendCmdToProcTerm s).recent_files = s.recent_files := by
  simp only [sendCmdToProcTerm]
  split_ifs <;> first
    | rfl
    | (cases s.command_sender <;> rfl)

/-- The fileviewer Enter epilogue keeps the recent list within five
entries. -/
theorem fileviewerPushRecent_len (s : VuitState)
    (h : s.recent_files.length ≤ 5) :
    (fileviewerPushRecent s).recent_files.length ≤ 5 := by
  simp only [fileviewerPushRecent]
  split_ifs <;> simp_all [List.length_tail] <;> omega

/-- The match-entry open branch keeps the recent list within five
entries. -/
theorem openFromStrList_len (s : VuitState)
    (h : s.recent_files.length ≤ 5) :
    (openFromStrList s).recent_files.length ≤ 5 := by
  simp only [openFromStrList]
  split_ifs <;> simp_all [List.length_tail] <;> omega

/-- The fileviewer handler keeps the recent list within five entries. -/
theorem fileviewerHandler_recent_len (env : Env) (s : VuitState) (k : Key)
    (h : s.recent_files.length ≤ 5) :
    (fileviewerHandler env s k).recent_files.length ≤ 5 := by
  cases k with
  | char c =>
    have he : (fileviewerHandler env s (Key.char c)).recent_files = s.recent_files := by
      simp only [fileviewerHandler]
      split <;> split_ifs <;> rfl
    rw [he]; exact h
  | backspace =>
    have he : (fileviewerHandler env s Key.backspace).recent_files = s.recent_files := by
      simp only [fileviewerHandler]
      split
      · rfl
      · split <;> split_ifs <;> rfl
    rw [he]; exact h
  | enter =>
    simp only [fileviewerHandler]
    split <;> split_ifs <;>
      first
        | exact h
        | exact fileviewerPushRecent_len s h
  | ctrlF => exact h
  | ctrlP => exact h
  | esc => exact h
  | ctrlJ => simp only [fileviewerHandler, stringsearchHandler, stringsearchreplaceHandler, navDown_recent]; exact h
  | down => simp only [fileviewerHandler, stringsearchHandler, stringsearchreplaceHandler, navDown_recent]; exact h
  | ctrlK => simp only [fileviewerHandler, stringsearchHandler, stringsearchreplaceHandler, navUp_recent]; exact h
  | up => simp only [fileviewerHandler, stringsearchHandler, stringsearchreplaceHandler, navUp_recent]; exact h
  | tab => simp only [fileviewerHandler, stringsearchHandler, stringsearchreplaceHandler, tabSwitch_recent]; exact h
  | ctrlR => exact h
  | ctrlN => exact h
  | ctrlT =>
    simp only [fileviewerHandler]
    split_ifs <;> exact h
  | ctrlX =>
    simp only [fileviewerHandler, sendCmdToProcTerm_recent]
    split_ifs <;> exact h
  | ctrlH =>
    simp only [fileviewerHandler]
    split_ifs <;> exact h
  | ctrlC => exact h
  | other => exact h

/-- The stringsearch handler keeps the recent list within five entries. -/
theorem stringsearchHandler_recent_len (env : Env) (s : VuitState) (k : Key)
    (h : s.recent_files.length ≤ 5) :
    (stringsearchHandler env s k).recent_files.length ≤ 5 := by
  cases k with
  | char c => exact h
  | backspace =>
    simp only [stringsearchHandler]
    split_ifs <;> exact h
  | enter =>
    simp only [stringsearchHandler]
    split_ifs
    · exact openFromStrList_len s h
    · exact h
  | esc => exact h
  | ctrlJ => simp only [fileviewerHandler, stringsearchHandler, stringsearchreplaceHandler, navDown_recent]; exact h
  | down => simp only [fileviewerHandler, stringsearchHandler, stringsearchreplaceHandler, navDown_recent]; exact h
  | ctrlK => simp only [fileviewerHandler, stringsearchHandler, stringsearchreplaceHandler, navUp_recent]; exact h
  | up => simp only [fileviewerHandler, stringsearchHandler, stringsearchreplaceHandler, navUp_recent]; exact h
  | tab => simp only [fileviewerHandler, stringsearchHandler, stringsearchreplaceHandler, tabSwitch_recent]; exact h
  | ctrlR => exact h
  | ctrlN => exact h
  | ctrlF => exact h
  | ctrlX =>
    simp only [stringsearchHandler]
    split_ifs <;>
      first
        | exact h
        | exact le_trans
            ((List.eraseIdx_sublist s.recent_files s.hltd_file).length_le) h
  | ctrlH =>
    simp only [stringsearchHandler]
    split_ifs <;> exact h
  | ctrlT => exact h
  | ctrlP => exact h
  | ctrlC => exact h
  | other => exact h

/-- The stringsearchreplace handler keeps the recent list within five
entries. -/
theorem stringsearchreplaceHandler_recent_len (env : Env) (s : VuitState)
    (k : Key) (h : s.recent_files.length ≤ 5) :
    (stringsearchreplaceHandler env s k).recent_files.length ≤ 5 := by
  cases k with
  | char c => exact h
  | backspace =>
    simp only [stringsearchreplaceHandler]
    split_ifs <;> exact h
  | enter =>
    simp only [stringsearchreplaceHandler]
    split_ifs
    · exact openFromStrList_len s h
    · exact h
  | esc => exact h
  | ctrlT => exact h
  | ctrlP => exact h
  | ctrlJ => simp only [fileviewerHandler, stringsearchHandler, stringsearchreplaceHandler, navDown_recent]; exact h
  | down => simp only [fileviewerHandler, stringsearchHandler, stringsearchreplaceHandler, navDown_recent]; exact h
  | ctrlK => simp only [fileviewerHandler, stringsearchHandler, stringsearchreplaceHandler, navUp_recent]; exact h
  | up => simp only [fileviewerHandler, stringsearchHandler, stringsearchreplaceHandler, navUp_recent]; exact h
  | tab => simp only [fileviewerHandler, stringsearchHandler, stringsearchreplaceHandler, tabSwitch_recent]; exact h
  | ctrlR => exact h
  | ctrlN => exact h
  | ctrlF => exact h
  | ctrlX =>
    simp only [stringsearchreplaceHandler]
    split_ifs <;>
      first
        | exact h
        | exact le_trans
            ((List.eraseIdx_sublist s.recent_files s.hltd_file).length_le) h
  | ctrlH =>
    simp only [stringsearchreplaceHandler]
    split_ifs <;> exact h
  | ctrlC => exact h
  | other => exact h

/-- The terminal handler keeps the recent list within five entries. -/
theorem terminalHandler_recent_len (env : Env) (s : VuitState) (k : Key)
    (h : s.recent_files.length ≤ 5) :
    (terminalHandler env s k).recent_files.length ≤ 5 := by
  cases k with
  | char c => exact h
  | backspace =>
    simp only [terminalHandler]
    split_ifs <;> exact h
  | enter =>
    simp only [terminalHandler, sendCmdToProcTerm_recent]
    exact h
  | esc => exact h
  | ctrlP => exact h
  | ctrlR => exact h
  | ctrlN => exact h
  | ctrlT => exact h
  | ctrlC =>
    simp only [terminalHandler]
    cases s.command_sender <;> exact h
  | ctrlH =>
    simp only [terminalHandler]
    split_ifs <;> exact h
  | ctrlF => exact h
  | ctrlJ => exact h
  | ctrlK => exact h
  | ctrlX => exact h
  | up => exact h
  | down => exact h
  | tab => exact h
  | other => exact h

/-- One dispatcher step keeps the recent list within five entries. -/
theorem dispatchStep_recent_len (env : Env) (s : VuitState) (e : AEvent)
    (h : s.recent_files.length ≤ 5) :
    (dispatchStep env s e).recent_files.length ≤ 5 := by
  cases e with
  | idle =>
    simp only [dispatchStep]
    split
    · split <;> exact h
    · exact h
  | key k =>
    simp only [dispatchStep]
    cases s.switch_context with
    | Fileviewer => exact fileviewerHandler_recent_len env s k h
    | Stringsearch => exact stringsearchHandler_recent_len env s k h
    | Stringsearchreplace => exact stringsearchreplaceHandler_recent_len env s k h
    | Terminal => exact terminalHandler_recent_len env s k h
    | Help => exact fileviewerHandler_recent_len env s k h
  | workerFinish =>
    simp only [dispatchStep]
    split <;> exact h
  | termLine line =>
    simp only [dispatchStep]
    split_ifs <;> exact h

/-- C7 counterexample.  After opening `a.txt` from the file list, the
recent list holds exactly `a.txt`.  Opening the match entry
`a.txt:1:hello hello` from the content-match list — whose path `a.txt` is
already present — grows the recent list to `["a.txt", "a.txt"]`: the open
branch tests membership of the *full* `path:line:text` entry string but
pushes the bare path. -/
theorem C7_counterexample :
    (runVuit demoEnv traceReopen).recent_files = ["a.txt"] ∧
    strEntryPath ((runVuit demoEnv traceReopen).file_str_list.getD
      (runVuit demoEnv traceReopen).hltd_file "") = "a.txt" ∧
    (dispatchStep demoEnv (runVuit demoEnv traceReopen)
      (AEvent.key Key.enter)).recent_files = ["a.txt", "a.txt"] :=
  ⟨by decide, by decide, by decide⟩

/-- C7 amended.  The recent list never exceeds five entries in any
reachable state (every push site trims it back to five, so any number of
open actions preserves the bound); opening from the *file list* a path
already present does not grow the list.  Opening from the content-match
list, however, compares the full `path:line:text` string against the
stored bare paths, so it can push a duplicate path (see the
counterexample); the bound of five still holds. -/
theorem C7_amended :
    (∀ (env : Env) (evs : List AEvent),
      (runVuit env evs).recent_files.length ≤ 5) ∧
    (∀ (env : Env) (s : VuitState) (e : AEvent),
      s.recent_files.length ≤ 5 →
      (dispatchStep env s e).recent_files.length ≤ 5) ∧
    (∀ (env : Env) (s : VuitState),
      s.switch_context = Context.Fileviewer →
      s.switch_focus = Focus.Filelist →
      s.recent_files.length ≤ 5 →
      s.file_list.getD s.hltd_file "" ∈ s.recent_files →
      (dispatchStep env s (AEvent.key Key.enter)).recent_files = s.recent_files) := by
  refine ⟨fun env evs => ?_, dispatchStep_recent_len, fun env s hc hf h5 hmem => ?_⟩
  · have step : ∀ (l : List AEvent) (s : VuitState),
        s.recent_files.length ≤ 5 →
        (l.foldl (dispatchStep env) s).recent_files.length ≤ 5 := by
      intro l
      induction l with
      | nil => intro s h; exact h
      | cons e t ih =>
        intro s h
        exact ih (dispatchStep env s e) (dispatchStep_recent_len env s e h)
    refine step evs (initState env) ?_
    have h0 : (initState env).recent_files = [] := by
      simp only [initState]
      split_ifs <;> rfl
    rw [h0]
    simp
  · have hcont : s.recent_files.contains (s.file_list.getD s.hltd_file "") = true := by
      exact List.elem_iff.mpr hmem
    have hnot : ¬ s.recent_files.length > 5 := by omega
    by_cases hr : s.hltd_file ≥ s.file_list.length
    · simp only [dispatchStep, hc, fileviewerHandler, hf]
      rw [if_pos hr]
    · have hcond : ¬ (s.switch_focus = Focus.Filelist ∧
          ¬ s.recent_files.contains (s.file_list.getD s.hltd_file "") = true) := by
        rw [hcont]; simp
      simp only [dispatchStep, hc, fileviewerHandler, hf]
      rw [if_neg hr]
      simp only [fileviewerPushRecent]
      rw [if_neg hcond, if_neg hnot]

/-- Witness for C7 amended: the bound holds along the reopen trace, one
more step keeps it, and in a concrete state where the highlighted
file-list entry is already recent the Enter action leaves the list
unchanged. -/
theorem C7_amended_witness :
    (runVuit demoEnv traceReopen).recent_files.length ≤ 5 ∧
    (dispatchStep demoEnv (runVuit demoEnv traceReopen)
      (AEvent.key Key.enter)).recent_files.length ≤ 5 ∧
    (dispatchStep demoEnv
      { initState demoEnv with recent_files := ["a.txt"] }
      (AEvent.key Key.enter)).recent_files = ["a.txt"] :=
  ⟨C7_amended.1 demoEnv traceReopen,
   C7_amended.2.1 demoEnv (runVuit demoEnv traceReopen) (AEvent.key Key.enter)
     (by decide),
   C7_amended.2.2 demoEnv { initState demoEnv with recent_files := ["a.txt"] }
     (by decide) (by decide) (by decide) (by decide)⟩

/-! ### C1: replace and unreadable files -/

/-- The cache-insertion condition of `processEntry`: the file path a held
match entry causes to be read into the cache (and hence written back at
the end), if any — the entry must split into at least three parts and
carry a parsable line number. -/
def entryTarget (entry : String) : Option String :=
  let parts := (splitChar ':' entry.toList).map fun l => (⟨l⟩ : String)
  if parts.length < 3 then none
  else
    match parseNat (parts.getD 1 "") with
    | none => none
    | some _ => some (parts.getD 0 "")

/-- Membership in the insert-if-absent cache. -/
theorem mem_cacheInsertIfAbsent {kv : String × List String}
    {c : List (String × List String)} {q : String} {v : List String}
    (h : kv ∈ cacheInsertIfAbsent c q v) : kv ∈ c ∨ kv = (q, v) := by
  unfold cacheInsertIfAbsent at h
  split_ifs at h with h1
  · exact Or.inl h
  · rcases List.mem_append.mp h with h2 | h2
    · exact Or.inl h2
    · exact Or.inr (List.mem_singleton.mp h2)

/-- Membership in the modified cache. -/
theorem mem_cacheModify {kv : String × List String}
    {c : List (String × List String)} {q : String}
    {f : List String → List String} (h : kv ∈ cacheModify c q f) :
    ∃ kv0 ∈ c, kv = if kv0.1 = q then (kv0.1, f kv0.2) else kv0 := by
  unfold cacheModify at h
  obtain ⟨kv0, h0, he⟩ := List.mem_map.mp h
  exact ⟨kv0, h0, he.symm⟩

/-- If every cached entry for `p` holds the empty line vector, so does a
successful lookup of `p`. -/
theorem cacheLookup_empty_of_inv {c : List (String × List String)} {p : String}
    (inv : ∀ kv ∈ c, kv.1 = p → kv.2 = []) :
    ∀ v, cacheLookup c p = some v → v = [] := by
  intro v hv
  unfold cacheLookup at hv
  obtain ⟨kv, hfind, hval⟩ := Option.map_eq_some'.mp hv
  have hmem := List.mem_of_find?_eq_some hfind
  have hkey : kv.1 = p := by
    have h2 := List.find?_some hfind
    simpa using h2
  rw [← hval]
  exact inv kv hmem hkey

/-- Processing one entry preserves the all-cached-lines-empty invariant of
an unreadable file: the file is only ever inserted with the
`unwrap_or_default()` empty vector, and the out-of-range guard prevents
any in-place replacement on an empty vector. -/
theorem processEntry_unreadable_inv (fs : String → Option String)
    (filter repl : String) {p : String} (hp : fs p = none)
    (c : List (String × List String))
    (inv : ∀ kv ∈ c, kv.1 = p → kv.2 = []) (e : String) :
    ∀ kv ∈ processEntry fs filter repl c e, kv.1 = p → kv.2 = [] := by
  intro kv hkv hkey
  simp only [processEntry] at hkv
  split_ifs at hkv with h1
  · exact inv kv hkv hkey
  · revert hkv
    split
    · intro hkv; exact inv kv hkv hkey
    · intro hkv
      rename_i lineNumber _
      set filePath := (((splitChar ':' e.toList).map fun l => (⟨l⟩ : String)).getD 0 "")
        with hfp
      set v := (match fs filePath with
        | some content => rustLines content
        | none => ([] : List String)) with hv
      have hins : ∀ kv2 ∈ cacheInsertIfAbsent c filePath v, kv2.1 = p → kv2.2 = [] := by
        intro kv2 hkv2 hkey2
        rcases mem_cacheInsertIfAbsent hkv2 with h2 | h2
        · exact inv kv2 h2 hkey2
        · rw [h2]
          rw [h2] at hkey2
          simp only at hkey2
          rw [hv]
          simp only [hkey2, hp]
      revert hkv
      split_ifs with h3
      · intro hkv
        exact hins kv hkv hkey
      · intro hkv
        obtain ⟨kv0, hkv0, he⟩ := mem_cacheModify hkv
        by_cases hq : kv0.1 = filePath
        · by_cases hqp : filePath = p
          · exfalso
            have hlookup : ∀ w, cacheLookup (cacheInsertIfAbsent c filePath v) filePath
                = some w → w = [] := by
              intro w hw
              have hins2 : ∀ kv2 ∈ cacheInsertIfAbsent c filePath v,
                  kv2.1 = filePath → kv2.2 = [] := by
                intro kv2 hkv2 hkey2
                exact hins kv2 hkv2 (hkey2.trans hqp)
              exact cacheLookup_empty_of_inv hins2 w hw
            rcases hl : cacheLookup (cacheInsertIfAbsent c filePath v) filePath with
              _ | w
            · simp only [hl, Option.getD_none, List.length_nil] at h3
              omega
            · have hw0 : w = [] := hlookup w hl
              rw [hl, hw0] at h3
              simp only [Option.getD_some, List.length_nil] at h3
              omega
          · rw [he] at hkey
            simp only [hq, if_pos rfl] at hkey
            exact absurd (hq ▸ hkey : filePath = p) hqp
        · rw [he] at hkey ⊢
          simp only [hq, if_neg hq] at hkey ⊢
          exact hins kv0 hkv0 hkey

/-- The whole entry fold preserves the all-cached-lines-empty invariant of
an unreadable file. -/
theorem finalCache_unreadable_inv (fs : String → Option String)
    (filter repl : String) {p : String} (hp : fs p = none) :
    ∀ (entries : List String) (c : List (String × List String)),
      (∀ kv ∈ c, kv.1 = p → kv.2 = []) →
      ∀ kv ∈ entries.foldl (processEntry fs filter repl) c, kv.1 = p → kv.2 = [] := by
  intro entries
  induction entries with
  | nil => intro c inv; exact inv
  | cons e t ih =>
    intro c inv
    exact ih (processEntry fs filter repl c e)
      (processEntry_unreadable_inv fs filter repl hp c inv e)

/-- A successful lookup exhibits a cached entry with that key. -/
theorem keyMem_of_lookup_isSome {c : List (String × List String)} {q : String}
    (h : (cacheLookup c q).isSome) : ∃ kv ∈ c, kv.1 = q := by
  obtain ⟨v, hv⟩ := Option.isSome_iff_exists.mp h
  unfold cacheLookup at hv
  obtain ⟨kv, hfind, -⟩ := Option.map_eq_some'.mp hv
  refine ⟨kv, List.mem_of_find?_eq_some hfind, ?_⟩
  have h2 := List.find?_some hfind
  simpa using h2

/-- Key membership after an insert-if-absent. -/
theorem keyMem_cacheInsertIfAbsent (c : List (String × List String))
    (q : String) (v : List String) (p : String) :
    (∃ kv ∈ cacheInsertIfAbsent c q v, kv.1 = p) ↔
      (∃ kv ∈ c, kv.1 = p) ∨ q = p := by
  unfold cacheInsertIfAbsent
  split_ifs with h1
  · constructor
    · exact Or.inl
    · rintro (h | h)
      · exact h
      · obtain ⟨kv, hkv, hkey⟩ := keyMem_of_lookup_isSome h1
        exact ⟨kv, hkv, hkey.trans h⟩
  · constructor
    · rintro ⟨kv, hkv, hkey⟩
      rcases List.mem_append.mp hkv with h2 | h2
      · exact Or.inl ⟨kv, h2, hkey⟩
      · rw [List.mem_singleton.mp h2] at hkey
        exact Or.inr hkey
    · rintro (⟨kv, hkv, hkey⟩ | h)
      · exact ⟨kv, List.mem_append.mpr (Or.inl hkv), hkey⟩
      · exact ⟨(q, v), List.mem_append.mpr (Or.inr (List.mem_singleton.mpr rfl)), h⟩

/-- A point modification does not change the key set. -/
theorem keyMem_cacheModify (c : List (String × List String)) (q : String)
    (f : List String → List String) (p : String) :
    (∃ kv ∈ cacheModify c q f, kv.1 = p) ↔ ∃ kv ∈ c, kv.1 = p := by
  unfold cacheModify
  constructor
  · rintro ⟨kv, hkv, hkey⟩
    obtain ⟨kv0, h0, he⟩ := List.mem_map.mp hkv
    refine ⟨kv0, h0, ?_⟩
    rw [← he] at hkey
    revert hkey
    split_ifs <;> exact fun h => h
  · rintro ⟨kv, hkv, hkey⟩
    by_cases hq : kv.1 = q
    · exact ⟨(kv.1, f kv.2), List.mem_map.mpr ⟨kv, hkv, by rw [if_pos hq]⟩, hkey⟩
    · exact ⟨kv, List.mem_map.mpr ⟨kv, hkv, by rw [if_neg hq]⟩, hkey⟩

/-- Processing one entry adds exactly its target file to the cache's key
set. -/
theorem keyMem_processEntry (fs : String → Option String) (filter repl : String)
    (c : List (String × List String)) (e : String) (p : String) :
    (∃ kv ∈ processEntry fs filter repl c e, kv.1 = p) ↔
      (∃ kv ∈ c, kv.1 = p) ∨ entryTarget e = some p := by
  simp only [processEntry, entryTarget]
  split_ifs with h1
  · simp
  · split
    · simp
    · rw [Option.some_inj]
      split_ifs with h3
      · rw [keyMem_cacheInsertIfAbsent]
      · rw [keyMem_cacheModify, keyMem_cacheInsertIfAbsent]

/-- The final cache's key set is exactly the set of files targeted by some
held match entry. -/
theorem keyMem_finalCache (fs : String → Option String) (filter repl : String)
    (entries : List String) (p : String) :
    (∃ kv ∈ finalCache fs filter repl entries, kv.1 = p) ↔
      ∃ e ∈ entries, entryTarget e = some p := by
  have main : ∀ (l : List String) (c : List (String × List String)),
      (∃ kv ∈ l.foldl (processEntry fs filter repl) c, kv.1 = p) ↔
        (∃ kv ∈ c, kv.1 = p) ∨ ∃ e ∈ l, entryTarget e = some p := by
    intro l
    induction l with
    | nil => intro c; simp
    | cons e t ih =>
      intro c
      rw [List.foldl_cons, ih, keyMem_processEntry]
      constructor
      · rintro ((h | h) | h)
        · exact Or.inl h
        · exact Or.inr ⟨e, List.mem_cons_self e t, h⟩
        · obtain ⟨e2, he2, ht⟩ := h
          exact Or.inr ⟨e2, List.mem_cons_of_mem e he2, ht⟩
      · rintro (h | ⟨e2, he2, ht⟩)
        · exact Or.inl (Or.inl h)
        · rcases List.mem_cons.mp he2 with h2 | h2
          · exact Or.inl (Or.inr (h2 ▸ ht))
          · exact Or.inr ⟨e2, h2, ht⟩
  rw [finalCache, main]
  simp

/-- The write-back fold realizes a last-writer-wins lookup: a file in the
cache ends up holding its (unique) cached lines joined by newlines, and a
file not in the cache is untouched. -/
theorem writeBack_eq (c : List (String × List String))
    (fs : String → Option String) (p : String) :
    writeBack fs c p =
      match c.reverse.find? fun kv => kv.1 = p with
      | some kv => some (joinLines kv.2)
      | none => fs p := by
  induction c generalizing fs with
  | nil => rfl
  | cons kv t ih =>
    rw [writeBack, List.foldl_cons, ← writeBack, ih, List.reverse_cons,
      List.find?_append]
    rcases hfind : t.reverse.find? fun kv2 => kv2.1 = p with _ | kv2
    · rw [hfind]
      simp only [Option.none_or]
      by_cases h : kv.1 = p
      · rw [List.find?_cons_of_pos _ (by simpa using h), if_pos h.symm]
      · rw [List.find?_cons_of_neg _ (by simpa using h),
          if_neg (fun hh => h hh.symm)]
        rfl
    · rw [hfind]
      rfl

/-- C1 counterexample.  With `a.txt` unreadable and `b.txt` = `bar\nkeep`,
replacing `bar` by `baz` over the matches `a.txt:1:bar` and `b.txt:1:bar`
does skip the unreadable file's match and does continue with `b.txt` —
but it does *not* leave `a.txt`'s on-disk contents unchanged: the
write-back loop writes the `unwrap_or_default()` empty cache entry, so
`a.txt` ends as an empty file. -/
theorem C1_counterexample :
    demoFs "a.txt" = none ∧
    (replaceStringOccurences demoFs ["a.txt:1:bar", "b.txt:1:bar"] "bar" "baz").1
      "a.txt" = some "" ∧
    (replaceStringOccurences demoFs ["a.txt:1:bar", "b.txt:1:bar"] "bar" "baz").1
      "b.txt" = some "baz\nkeep" ∧
    ¬ (replaceStringOccurences demoFs ["a.txt:1:bar", "b.txt:1:bar"] "bar" "baz").1
        "a.txt" = demoFs "a.txt" :=
  ⟨by decide, by decide, by decide, by decide⟩

/-- C1 amended.  During a replace with a non-empty filter, a file whose
read fails has its matches skipped (nothing is substituted — its cache
entry stays the empty line vector) and the batch continues for the other
files; but the file is not left unchanged on disk: it is written back
with empty contents.  Files not named by any well-formed held match entry
are untouched. -/
theorem C1_amended (fs : String → Option String) (entries : List String)
    (filter repl p : String) (hf : filter ≠ "") (hp : fs p = none)
    (he : ∃ e ∈ entries, entryTarget e = some p) :
    (replaceStringOccurences fs entries filter repl).1 p = some "" ∧
    (∀ q, (∀ e ∈ entries, entryTarget e ≠ some q) →
      (replaceStringOccurences fs entries filter repl).1 q = fs q) := by
  have hrepl : (replaceStringOccurences fs entries filter repl).1 =
      writeBack fs (finalCache fs filter repl entries) := by
    unfold replaceStringOccurences
    rw [if_neg hf]
  rw [hrepl]
  constructor
  · have hkm : ∃ kv ∈ finalCache fs filter repl entries, kv.1 = p :=
      (keyMem_finalCache fs filter repl entries p).mpr he
    obtain ⟨kv, hkv, hkey⟩ := hkm
    have hsome : ((finalCache fs filter repl entries).reverse.find?
        fun kv2 => kv2.1 = p).isSome := by
      rw [List.find?_isSome]
      exact ⟨kv, List.mem_reverse.mpr hkv, by simpa using hkey⟩
    rcases hfind : (finalCache fs filter repl entries).reverse.find?
        fun kv2 => kv2.1 = p with _ | kv2
    · rw [hfind] at hsome
      simp at hsome
    · have hmem2 : kv2 ∈ finalCache fs filter repl entries :=
        List.mem_reverse.mp (List.mem_of_find?_eq_some hfind)
      have hkey2 : kv2.1 = p := by
        have h2 := List.find?_some hfind
        simpa using h2
      have hval : kv2.2 = [] :=
        finalCache_unreadable_inv fs filter repl hp entries []
          (by intro kv3 hkv3; simp at hkv3) kv2 hmem2 hkey2
      rw [writeBack_eq, hfind]
      simp only [hval]
      rfl
  · intro q hq
    have hnone : (finalCache fs filter repl entries).reverse.find?
        (fun kv2 => kv2.1 = q) = none := by
      rw [List.find?_eq_none]
      intro kv hkv hpred
      have hkey : kv.1 = q := by simpa using hpred
      have := (keyMem_finalCache fs filter repl entries q).mp
        ⟨kv, List.mem_reverse.mp hkv, hkey⟩
      obtain ⟨e, hee, het⟩ := this
      exact hq e hee het
    rw [writeBack_eq, hnone]

/-- Witness for C1 amended, at the demo disk: the unreadable `a.txt`
(named by the well-formed entry `a.txt:1:bar`) is written back empty,
while `c.txt`, named by no entry, is untouched. -/
theorem C1_amended_witness :
    (replaceStringOccurences demoFs ["a.txt:1:bar", "b.txt:1:bar"] "bar" "baz").1
      "a.txt" = some "" ∧
    (replaceStringOccurences demoFs ["a.txt:1:bar", "b.txt:1:bar"] "bar" "baz").1
      "c.txt" = demoFs "c.txt" :=
  ⟨(C1_amended demoFs ["a.txt:1:bar", "b.txt:1:bar"] "bar" "baz" "a.txt"
      (by decide) (by decide) ⟨"a.txt:1:bar", by decide, by decide⟩).1,
   (C1_amended demoFs ["a.txt:1:bar", "b.txt:1:bar"] "bar" "baz" "a.txt"
      (by decide) (by decide) ⟨"a.txt:1:bar", by decide, by decide⟩).2
     "c.txt" (by decide)⟩
